import Mathlib

/-!
Verification development for the twitter-scheduler repository (src/app.py).

We give a shallow embedding of the scheduling and delivery core:
the `tweets` table (Post Store), the submission endpoint `schedule_tweet`,
the listing endpoint `get_tweets`, the media resolver
`upload_media_to_twitter`, the immediate-publish endpoint `post_now`, and
one tick of the background loop `check_and_post_tweets`.

Modelling conventions:
* Timestamps are `Nat`; the SQL comparison `scheduled_time <= now` on the
  stored TEXT column is a total order, represented by `≤` on `Nat`.
* A database row of the `tweets` table is a `Tweet`; the store is the list
  of rows.  The column `posted INTEGER DEFAULT 0` is a `Bool`.  The column
  `image_paths TEXT` holds a JSON list or NULL; both NULL and parse
  failures are read back as the empty list by the code, so we model the
  column directly as `List String`.
* External effects (the tweepy clients, the filesystem) are an `Env` of
  oracles.  A Python call that may raise is an `Option`-valued oracle,
  `none` meaning the call raised.
* Each invocation of the external create-post call `client.create_tweet`
  is recorded as a `CreateTweetCall`; the `media` field is `none` when the
  `media_ids` keyword argument was omitted entirely, `some l` when it was
  passed with value `l`.
-/

/-- One row of the `tweets` table (columns id, content, scheduled_time,
posted, image_paths; `created_at` is never read by the core and is
omitted). -/
structure Tweet where
  id : Nat
  content : String
  scheduled_time : Nat
  posted : Bool
  image_paths : List String
  deriving DecidableEq, Repr

/-- The `tweets` table: the durable Post Store. -/
abbrev Store := List Tweet

/-- External-world oracles for one execution: whether the tweepy v2 client
and the v1.1 api were initialised, which stored files exist, what
`api_v1.media_upload` returns (`none` = the call raised), and what
`client.create_tweet` returns (`none` = the call raised).  `create_tweet`
receives the text and the `media_ids` argument exactly as the code passes
them. -/
structure Env where
  clientConfigured : Bool
  apiV1Configured : Bool
  fileExists : String → Bool
  mediaUpload : String → Option Nat
  createTweet : String → Option (List Nat) → Option Nat

/-- A record of one invocation of `client.create_tweet`: which tweet row it
was made for (0 for the immediate-publish path, which has no row), the
`text` argument, and the `media_ids` argument (`none` = parameter omitted). -/
structure CreateTweetCall where
  tweetId : Nat
  text : String
  media : Option (List Nat)
  deriving DecidableEq, Repr

/-- Find the row with the given id (`WHERE id = ?`; the store is keyed by
id). -/
def lookupId : Store → Nat → Option Tweet
  | [], _ => none
  | t :: l, j => if t.id = j then some t else lookupId l j

/-- The store has pairwise distinct ids (guaranteed by the PRIMARY KEY). -/
def idsNodup (s : Store) : Prop :=
  (List.map Tweet.id s).Nodup

instance (s : Store) : Decidable (idsNodup s) :=
  inferInstanceAs (Decidable (List.Nodup _))

/-- Embeds the SQL `SELECT ... FROM tweets WHERE posted = 0 AND
scheduled_time <= now` issued by `check_and_post_tweets`
(src/app.py:333-344): the due, still-pending rows. -/
def selectDue (s : Store) (now : Nat) : List Tweet :=
  s.filter (fun t => !t.posted && t.scheduled_time ≤ now)

/-- Embeds `UPDATE tweets SET posted = 1 WHERE id = ?`
(src/app.py:369, 371, 377, 379). -/
def markPosted (s : Store) (i : Nat) : Store :=
  s.map (fun t => if t.id = i then { t with posted := true } else t)

/-- The id SQLite/PostgreSQL assigns to a freshly inserted row: one more
than the largest id present. -/
def nextId (s : Store) : Nat :=
  (List.foldr (fun t m => max t.id m) 0 s) + 1

/-- A normalized submission as it reaches the validation part of
`schedule_tweet` (src/app.py:160-199): the content field, the parsed
scheduled time, and the attachment reference list (`image_paths`). -/
structure Submission where
  content : String
  scheduled_time : Nat
  image_paths : List String
  deriving DecidableEq, Repr

/-- Outcome of a request handler: a JSON success payload carrying the new
id, or a 400 error response with a message. -/
inductive ScheduleResult where
  | ok (id : Nat)
  | validationError (msg : String)
  deriving DecidableEq, Repr

/-- True when the result is a 400 error response. -/
def ScheduleResult.isError : ScheduleResult → Bool
  | .ok _ => false
  | .validationError _ => true

/-- Embeds Python str.strip() (src/app.py:160, 295): remove leading and
trailing whitespace.  Defined by structural recursion on the character
list so that concrete instances evaluate inside the kernel. -/
def stripWs (s : String) : String :=
  ⟨((s.data.dropWhile Char.isWhitespace).reverse.dropWhile
      Char.isWhitespace).reverse⟩

/-- Embeds the validation and insert of `schedule_tweet`
(src/app.py:160-207): strip the content (`stripWs`), reject empty content, reject more
than 4 images, reject a scheduled time strictly earlier than `now`
(the code tests `scheduled_datetime < now`), otherwise insert a new row
with `posted = 0` and return its id.  The checks appear in the code's
order (the missing/unparseable `scheduled_time` check disappears because
the model receives the timestamp already parsed, as §6 of the design
normalizes the boundary). -/
def schedule_tweet (now : Nat) (sub : Submission) (s : Store) :
    ScheduleResult × Store :=
  let content := stripWs sub.content
  if content = "" then
    (.validationError "Tweet content is required", s)
  else if 4 < sub.image_paths.length then
    (.validationError "Maximum 4 images allowed", s)
  else if sub.scheduled_time < now then
    (.validationError "Scheduled time must be in the future", s)
  else
    (.ok (nextId s),
     s ++ [⟨nextId s, content, sub.scheduled_time, false, sub.image_paths⟩])

/-- The name under which an uploaded multipart file is saved
(src/app.py:153-158): a timestamp prerendered onto the (sanitized)
client filename.  The sanitization of `secure_filename` is name mangling
only and is modelled as the identity on the already-safe names we
quantify over; `stamp` is the `datetime.now().strftime(...)` part. -/
def savedName (stamp : String) (filename : String) : String :=
  stamp ++ filename

/-- Embeds the multipart branch of `schedule_tweet` (src/app.py:142-207):
every uploaded file with a non-empty filename is saved into the upload
folder FIRST (src/app.py:149-158), and only then does validation run on
the saved names; `storage` is the set of files in the upload folder,
returned alongside the handler result and the store. -/
def schedule_tweet_multipart (now : Nat) (content : String)
    (scheduled_time : Nat) (files : List String) (stamp : String)
    (storage : List String) (s : Store) :
    ScheduleResult × Store × List String :=
  let saved := (files.filter (fun f => f ≠ "")).map (savedName stamp)
  let r := schedule_tweet now ⟨content, scheduled_time, saved⟩ s
  (r.1, r.2, storage ++ saved)

/-- One listing entry produced by `get_tweets` (src/app.py:237-244): the
`posted` column is reported as `bool(row[3])`. -/
structure TweetView where
  id : Nat
  content : String
  scheduled_time : Nat
  posted : Bool
  image_paths : List String
  deriving DecidableEq, Repr

/-- Row-to-response mapping of the listing endpoint (src/app.py:237-244). -/
def tweetView (t : Tweet) : TweetView :=
  ⟨t.id, t.content, t.scheduled_time, t.posted, t.image_paths⟩

/-- Embeds `get_tweets` (src/app.py:209-246): rows ordered by
`scheduled_time` descending, capped at 50, each mapped through
`tweetView`. -/
def get_tweets (s : Store) : List TweetView :=
  ((s.mergeSort (fun a b => b.scheduled_time ≤ a.scheduled_time)).take 50).map
    tweetView

/-- Per-reference step of the media resolver loop (src/app.py:254-265):
a missing stored file is skipped, an upload that raises is skipped, a
successful upload contributes its media id. -/
def uploadOne (env : Env) (p : String) : Option Nat :=
  if env.fileExists p then env.mediaUpload p else none

/-- Embeds `upload_media_to_twitter` (src/app.py:248-266): returns `[]`
immediately when the v1.1 api is not configured or the list is empty,
otherwise loops over the references, skipping missing files and raised
uploads and collecting the media ids of the successful ones. -/
def upload_media_to_twitter (env : Env) (image_paths : List String) :
    List Nat :=
  if !env.apiV1Configured || image_paths.isEmpty then []
  else image_paths.filterMap (uploadOne env)

/-- The `media_ids` value computed for a due tweet by the scheduler loop
(src/app.py:359): `None`—modelled as `[]`, which the code treats
identically in its truthiness test—when there are no references, otherwise
the resolver's result. -/
def handlesOf (env : Env) (t : Tweet) : List Nat :=
  if t.image_paths.isEmpty then [] else upload_media_to_twitter env t.image_paths

/-- The `media_ids` keyword argument passed to `client.create_tweet`
(src/app.py:362-365): omitted (`none`) when the handle list is empty
(`if media_ids:` is false for both `None` and `[]`), passed otherwise. -/
def mediaArgOf (env : Env) (t : Tweet) : Option (List Nat) :=
  if (handlesOf env t).isEmpty then none else some (handlesOf env t)

/-- Processing of one due tweet inside the tick loop body
(src/app.py:346-384).  Returns whether the row is marked `posted = 1`,
and the `create_tweet` invocations made.  With no client configured the
tweet is skipped untouched; with oversized content the row is marked
without any publish call; otherwise media is resolved, `create_tweet` is
invoked, and the row is marked exactly when the call returned (a raise is
caught at src/app.py:381 and leaves the row untouched). -/
def processTweet (env : Env) (t : Tweet) : Bool × List CreateTweetCall :=
  if env.clientConfigured then
    if t.content.length ≤ 280 then
      match env.createTweet t.content (mediaArgOf env t) with
      | some _ => (true, [⟨t.id, t.content, mediaArgOf env t⟩])
      | none => (false, [⟨t.id, t.content, mediaArgOf env t⟩])
    else
      (true, [])
  else
    (false, [])

/-- Fold step of the tick: apply one due tweet's outcome to the store and
append its publish calls to the trace. -/
def tickStep (env : Env) (acc : Store × List CreateTweetCall) (t : Tweet) :
    Store × List CreateTweetCall :=
  let r := processTweet env t
  (if r.1 then markPosted acc.1 t.id else acc.1, acc.2 ++ r.2)

/-- One tick of `check_and_post_tweets` (src/app.py:326-391): select the
due pending rows once, then process each in order.  Exceptions of one
tweet's processing are caught inside the loop body (src/app.py:381) and
those of the tick are caught outside it (src/app.py:387), so the tick is a
total function of the environment and the store. -/
def tick (env : Env) (now : Nat) (s : Store) :
    Store × List CreateTweetCall :=
  (selectDue s now).foldl (tickStep env) (s, [])

/-- The scheduler loop run over a list of tick times: the background
thread's `while True` body executed once per element. -/
def runTicks (env : Env) (nows : List Nat) (s : Store) : Store :=
  nows.foldl (fun st n => (tick env n st).1) s

/-- Store effect of processing a list of due tweets: mark each tweet
whose processing succeeded (or was the permanent oversize skip). -/
def markFlagged (env : Env) (st : Store) (l : List Tweet) : Store :=
  l.foldl
    (fun st2 t => if (processTweet env t).1 then markPosted st2 t.id else st2)
    st

/-- The filename normalization of `post_now` (src/app.py:307): keep the
last component after a forward or backward slash. -/
def baseName (p : String) : String :=
  if p.contains '/' then (p.splitOn "/").getLastD p
  else if p.contains '\\' then (p.splitOn "\\").getLastD p
  else p

/-- The `media_ids` value computed by `post_now` (src/app.py:307-308):
`None`—modelled as `[]`, identically falsy—when there are no filenames,
otherwise the resolver's result on the basenames. -/
def post_now_handles (env : Env) (image_paths : List String) : List Nat :=
  let filenames := image_paths.map baseName
  if filenames.isEmpty then [] else upload_media_to_twitter env filenames

/-- Embeds `post_now` (src/app.py:268-322): the immediate-publish
endpoint.  Rejects when the client is not configured, the stripped content
is empty or exceeds 280 characters, or more than 4 images are given;
otherwise resolves media from the basenames and invokes `create_tweet`,
omitting the `media_ids` parameter when no handle was obtained
(src/app.py:311-314). -/
def post_now (env : Env) (content : String) (image_paths : List String) :
    ScheduleResult × List CreateTweetCall :=
  if !env.clientConfigured then
    (.validationError "Twitter API credentials not configured", [])
  else
    let c := stripWs content
    if c = "" then (.validationError "Tweet content is required", [])
    else if 280 < c.length then
      (.validationError "Tweet content exceeds 280 characters", [])
    else if 4 < image_paths.length then
      (.validationError "Maximum 4 images allowed", [])
    else
      let media_ids := post_now_handles env image_paths
      let mediaArg := if media_ids.isEmpty then none else some media_ids
      match env.createTweet c mediaArg with
      | some tid => (.ok tid, [⟨0, c, mediaArg⟩])
      | none => (.validationError "create_tweet raised", [⟨0, c, mediaArg⟩])

/-- The `Pending` state of the design maps to `posted = 0` in the stored
row. -/
def isPending (t : Tweet) : Bool := !t.posted

/-- Both terminal states of the design (`Posted` and `Failed`) map to
`posted = 1` in the stored row: the table records no finer distinction. -/
def isTerminal (t : Tweet) : Bool := t.posted

/-- A 281-character content, used as a concrete oversized tweet body. -/
def longContent : String := String.mk (List.replicate 281 'x')

/-- Concrete environment: both clients configured, no stored file exists,
every media upload raises, every `create_tweet` succeeds with id 999. -/
def envOk : Env :=
  ⟨true, true, fun _ => false, fun _ => none, fun _ _ => some 999⟩

/-- Concrete environment: both clients configured, the file named
"a.png" exists and uploads to handle 7, every `create_tweet` raises. -/
def envFail : Env :=
  ⟨true, true, fun p => p = "a.png", fun _ => some 7, fun _ _ => none⟩

/-- Concrete store rows used to instantiate the theorems. -/
def rowOversize : Tweet := ⟨1, longContent, 3, false, []⟩

/-- A short pending row with no attachments, due at time 3. -/
def rowShort : Tweet := ⟨2, "hello", 3, false, []⟩

/-- A pending row whose single attachment reference names a missing file. -/
def rowMissingMedia : Tweet := ⟨3, "pic", 3, false, ["gone.png"]⟩

/-- An already-posted row. -/
def rowDone : Tweet := ⟨4, "old", 1, true, []⟩

/-- A concrete store holding the four rows above. -/
def storeABC : Store := [rowOversize, rowShort, rowMissingMedia, rowDone]

/-- A small concrete store without the oversized row. -/
def storeSmall : Store := [rowShort, rowMissingMedia, rowDone]

/-- A concrete store whose row 1 is already posted. -/
def storePosted : Store := [⟨1, "a", 0, true, []⟩, ⟨2, "b", 0, false, []⟩]

/-! ### Helper lemmas about the store and the tick -/

/-- Updating a row keeps its id. -/
theorem markFn_id (t : Tweet) : ({ t with posted := true } : Tweet).id = t.id :=
  rfl

/-- Setting `posted` twice is the same as setting it once. -/
theorem markFn_idem (u : Tweet) :
    ({ { u with posted := true } with posted := true } : Tweet)
      = { u with posted := true } := rfl

/-- Setting `posted` on an already posted row changes nothing. -/
theorem markFn_of_posted (u : Tweet) (h : u.posted = true) :
    ({ u with posted := true } : Tweet) = u := by
  cases u
  simp_all

/-- Unfolding of `markPosted` on a cons cell. -/
theorem markPosted_cons (t : Tweet) (l : Store) (i : Nat) :
    markPosted (t :: l) i =
      (if t.id = i then { t with posted := true } else t) :: markPosted l i :=
  rfl

/-- Effect of `markPosted` on a single lookup. -/
theorem lookupId_markPosted (s : Store) (i j : Nat) :
    lookupId (markPosted s i) j =
      if i = j then
        (lookupId s j).map (fun u => { u with posted := true })
      else lookupId s j := by
  induction s with
  | nil => by_cases h : i = j <;> simp [lookupId, markPosted, h]
  | cons t l ih =>
    rw [markPosted_cons]
    by_cases hti : t.id = i
    · by_cases htj : t.id = j
      · have hij : i = j := by rw [← hti, htj]
        simp [lookupId, hti, htj, hij]
      · have hij : i ≠ j := by rw [← hti]; exact htj
        simp [lookupId, hti, htj, hij, ih]
    · by_cases htj : t.id = j
      · have hij : i ≠ j := by rw [← htj]; intro he; exact hti he.symm
        have hji : ¬j = i := fun he => hij he.symm
        simp [lookupId, hti, htj, hij, hji]
      · simp [lookupId, hti, htj, ih]

/-- `markPosted` does not change the id column. -/
theorem ids_markPosted (s : Store) (i : Nat) :
    (markPosted s i).map Tweet.id = s.map Tweet.id := by
  induction s with
  | nil => rfl
  | cons t l ih =>
    rw [markPosted_cons]
    by_cases h : t.id = i <;> simp [h, ih]

/-- The tick's fold is `markFlagged` on the store component and the
concatenation of the per-tweet call lists on the trace component. -/
theorem foldl_tickStep (env : Env) (l : List Tweet) (st : Store)
    (cs : List CreateTweetCall) :
    l.foldl (tickStep env) (st, cs)
      = (markFlagged env st l,
         cs ++ (l.map (fun t => (processTweet env t).2)).flatten) := by
  induction l generalizing st cs with
  | nil => simp [markFlagged]
  | cons t l ih =>
    simp only [List.foldl_cons, tickStep, List.map_cons, List.flatten_cons]
    rw [ih]
    simp [markFlagged, List.append_assoc]

/-- Store component of the tick. -/
theorem tick_fst (env : Env) (now : Nat) (s : Store) :
    (tick env now s).1 = markFlagged env s (selectDue s now) := by
  rw [tick, foldl_tickStep]

/-- Call-trace component of the tick. -/
theorem tick_snd (env : Env) (now : Nat) (s : Store) :
    (tick env now s).2
      = ((selectDue s now).map (fun t => (processTweet env t).2)).flatten := by
  rw [tick, foldl_tickStep]
  rfl

/-- Lookup after the marking fold: a row is marked exactly when some
processed tweet carries its id and a success flag. -/
theorem lookupId_markFlagged (env : Env) (l : List Tweet) (st : Store)
    (j : Nat) :
    lookupId (markFlagged env st l) j =
      if l.any (fun t => t.id == j && (processTweet env t).1) then
        (lookupId st j).map (fun u => { u with posted := true })
      else lookupId st j := by
  induction l generalizing st with
  | nil => simp [markFlagged]
  | cons t l ih =>
    simp only [markFlagged, List.foldl_cons, List.any_cons]
    rw [show (List.foldl
        (fun st2 t => if (processTweet env t).1 then markPosted st2 t.id else st2)
        (if (processTweet env t).1 then markPosted st t.id else st) l)
      = markFlagged env
          (if (processTweet env t).1 then markPosted st t.id else st) l from rfl]
    rw [ih]
    by_cases hf : (processTweet env t).1 = true
    · by_cases hj : t.id = j
      · simp only [hf, hj, if_pos, beq_self_eq_true, Bool.true_and,
          Bool.true_or, if_true, lookupId_markPosted, if_pos rfl]
        by_cases ha : l.any (fun t => t.id == j && (processTweet env t).1) = true
        · rw [if_pos ha]
          cases lookupId st j <;> rfl
        · rw [if_neg ha]
      · have hb : (t.id == j) = false := by simp [hj]
        simp only [hf, if_pos, lookupId_markPosted, if_neg hj, hb,
          Bool.false_and, Bool.false_or]
    · have hf' : (processTweet env t).1 = false := by
        cases h : (processTweet env t).1
        · rfl
        · exact absurd h hf
      simp [hf']

/-- The marking fold does not change the id column. -/
theorem ids_markFlagged (env : Env) (l : List Tweet) (st : Store) :
    (markFlagged env st l).map Tweet.id = st.map Tweet.id := by
  induction l generalizing st with
  | nil => rfl
  | cons t l ih =>
    simp only [markFlagged, List.foldl_cons]
    rw [show (List.foldl
        (fun st2 t => if (processTweet env t).1 then markPosted st2 t.id else st2)
        (if (processTweet env t).1 then markPosted st t.id else st) l)
      = markFlagged env
          (if (processTweet env t).1 then markPosted st t.id else st) l from rfl]
    rw [ih]
    by_cases hf : (processTweet env t).1 = true <;>
      simp [hf, ids_markPosted]

/-- A tick does not change the id column: no row is created or dropped. -/
theorem ids_tick (env : Env) (now : Nat) (s : Store) :
    ((tick env now s).1).map Tweet.id = s.map Tweet.id := by
  rw [tick_fst, ids_markFlagged]

/-- A tick preserves distinctness of ids. -/
theorem idsNodup_tick (env : Env) (now : Nat) (s : Store)
    (hn : idsNodup s) : idsNodup (tick env now s).1 := by
  unfold idsNodup at *
  rw [ids_tick]
  exact hn

/-- Arbitrarily many ticks do not change the id column. -/
theorem ids_runTicks (env : Env) (nows : List Nat) (s : Store) :
    (runTicks env nows s).map Tweet.id = s.map Tweet.id := by
  induction nows generalizing s with
  | nil => rfl
  | cons n ns ih =>
    rw [show runTicks env (n :: ns) s = runTicks env ns (tick env n s).1 from
      rfl]
    rw [ih, ids_tick]

/-- Arbitrarily many ticks preserve distinctness of ids. -/
theorem idsNodup_runTicks (env : Env) (nows : List Nat) (s : Store)
    (hn : idsNodup s) : idsNodup (runTicks env nows s) := by
  unfold idsNodup at *
  rw [ids_runTicks]
  exact hn

/-- In a store with distinct ids, a member row is found at its own id. -/
theorem lookupId_of_mem (s : Store) (hn : idsNodup s) (t : Tweet)
    (ht : t ∈ s) : lookupId s t.id = some t := by
  induction s with
  | nil => cases ht
  | cons u l ih =>
    unfold idsNodup at hn
    simp only [List.map_cons, List.nodup_cons] at hn
    rcases List.mem_cons.mp ht with rfl | hmem
    · simp [lookupId]
    · have hne : u.id ≠ t.id := by
        intro he
        exact hn.1 (he ▸ (List.mem_map.mpr ⟨t, hmem, rfl⟩))
      simp only [lookupId, if_neg hne]
      exact ih hn.2 hmem

/-- A successful lookup returns a member row carrying the looked-up id. -/
theorem mem_of_lookupId (s : Store) (j : Nat) (u : Tweet)
    (h : lookupId s j = some u) : u ∈ s ∧ u.id = j := by
  induction s with
  | nil => cases h
  | cons x l ih =>
    by_cases hx : x.id = j
    · simp only [lookupId, if_pos hx] at h
      injection h with h2
      subst h2
      exact ⟨List.mem_cons_self _ _, hx⟩
    · simp only [lookupId, if_neg hx] at h
      obtain ⟨hm, hid⟩ := ih h
      exact ⟨List.mem_cons_of_mem x hm, hid⟩

/-- In a store with distinct ids, rows are determined by their id. -/
theorem id_inj (s : Store) (hn : idsNodup s) {t x : Tweet} (ht : t ∈ s)
    (hx : x ∈ s) (hid : x.id = t.id) : x = t := by
  have h1 := lookupId_of_mem s hn t ht
  have h2 := lookupId_of_mem s hn x hx
  rw [hid, h1] at h2
  exact (Option.some.inj h2).symm

/-- Membership characterization of the due query. -/
theorem mem_selectDue {s : Store} {now : Nat} {t : Tweet} :
    t ∈ selectDue s now ↔
      t ∈ s ∧ t.posted = false ∧ t.scheduled_time ≤ now := by
  simp [selectDue, List.mem_filter, Bool.and_eq_true, Bool.not_eq_true',
    decide_eq_true_eq, and_assoc]

/-- In a nodup store, the marking condition for a due tweet's own id is
exactly its own processing flag. -/
theorem due_any (env : Env) {s : Store} {now : Nat} {t : Tweet}
    (hn : idsNodup s) (ht : t ∈ selectDue s now) :
    (selectDue s now).any (fun x => x.id == t.id && (processTweet env x).1)
      = (processTweet env t).1 := by
  cases hf : (processTweet env t).1 with
  | true =>
    apply List.any_eq_true.mpr
    exact ⟨t, ht, by simp [hf]⟩
  | false =>
    apply List.any_eq_false.mpr
    intro x hx hp
    simp only [Bool.and_eq_true, beq_iff_eq] at hp
    obtain ⟨hid, hflag⟩ := hp
    have hxt : x = t :=
      id_inj s hn (mem_selectDue.mp ht).1 (mem_selectDue.mp hx).1 hid
    rw [hxt, hf] at hflag
    cases hflag

/-- Central tick lemma: in a nodup store, a due tweet's row after the tick
is its old row, marked posted exactly when its own processing succeeded —
independently of every other due tweet's outcome. -/
theorem tick_lookup_due (env : Env) {s : Store} {now : Nat}
    (hn : idsNodup s) {t : Tweet} (ht : t ∈ selectDue s now) :
    lookupId (tick env now s).1 t.id =
      some (if (processTweet env t).1 then { t with posted := true } else t)
    := by
  rw [tick_fst, lookupId_markFlagged, due_any env hn ht,
    lookupId_of_mem s hn t (mem_selectDue.mp ht).1]
  cases hf : (processTweet env t).1 <;> simp [hf]

/-- A tick either leaves a row alone or marks it posted. -/
theorem tick_lookup (env : Env) (now : Nat) (s : Store) (j : Nat) :
    lookupId (tick env now s).1 j = lookupId s j ∨
    lookupId (tick env now s).1 j
      = (lookupId s j).map (fun u => { u with posted := true }) := by
  rw [tick_fst, lookupId_markFlagged]
  by_cases h :
      (selectDue s now).any
        (fun t => t.id == j && (processTweet env t).1) = true
  · right; rw [if_pos h]
  · left; rw [if_neg h]

/-- A posted row stays intact through a tick. -/
theorem lookup_posted_tick (env : Env) (now : Nat) (s : Store) (j : Nat)
    (u : Tweet) (h : lookupId s j = some u) (hp : u.posted = true) :
    lookupId (tick env now s).1 j = some u := by
  rcases tick_lookup env now s j with h2 | h2 <;> rw [h2, h]
  simp [markFn_of_posted u hp]

/-- A posted row stays intact through arbitrarily many ticks. -/
theorem lookup_posted_runTicks (env : Env) (nows : List Nat) (s : Store)
    (j : Nat) (u : Tweet) (h : lookupId s j = some u)
    (hp : u.posted = true) :
    lookupId (runTicks env nows s) j = some u := by
  induction nows generalizing s with
  | nil => exact h
  | cons n ns ih =>
    rw [show runTicks env (n :: ns) s = runTicks env ns (tick env n s).1 from
      rfl]
    exact ih (tick env n s).1 (lookup_posted_tick env n s j u h hp)

/-- A posted row is never selected as due. -/
theorem posted_not_due (s : Store) (n j : Nat) (u : Tweet)
    (hn : idsNodup s) (h : lookupId s j = some u) (hp : u.posted = true) :
    ∀ x ∈ selectDue s n, x.id ≠ j := by
  intro x hx he
  obtain ⟨hu, huid⟩ := mem_of_lookupId s j u h
  have hx' := mem_selectDue.mp hx
  have hxu : x = u := id_inj s hn hu hx'.1 (he.trans huid.symm)
  rw [hxu] at hx'
  rw [hx'.2.1] at hp
  cases hp

/-- Every call of a tick comes from the processing of some due tweet. -/
theorem tick_calls_mem (env : Env) (now : Nat) (s : Store)
    (c : CreateTweetCall) (hc : c ∈ (tick env now s).2) :
    ∃ x ∈ selectDue s now, c ∈ (processTweet env x).2 := by
  rw [tick_snd] at hc
  rw [List.mem_flatten] at hc
  obtain ⟨l, hl, hcl⟩ := hc
  rw [List.mem_map] at hl
  obtain ⟨x, hx, hxl⟩ := hl
  exact ⟨x, hx, hxl ▸ hcl⟩

/-- Shape of the calls one tweet's processing can emit: at most the one
call with its own id, its own content (of length at most 280), and the
`media_ids` argument computed for it; and only with a configured client. -/
theorem processTweet_calls (env : Env) (x : Tweet) (c : CreateTweetCall)
    (hc : c ∈ (processTweet env x).2) :
    c = ⟨x.id, x.content, mediaArgOf env x⟩ ∧ env.clientConfigured = true
      ∧ x.content.length ≤ 280 := by
  unfold processTweet at hc
  by_cases h1 : env.clientConfigured = true
  · rw [if_pos h1] at hc
    by_cases h2 : x.content.length ≤ 280
    · rw [if_pos h2] at hc
      cases hm : env.createTweet x.content (mediaArgOf env x) <;>
        rw [hm] at hc <;> simp at hc <;> exact ⟨hc, h1, h2⟩
    · rw [if_neg h2] at hc
      cases hc
  · rw [if_neg h1] at hc
    cases hc

/-- Oversized content with a configured client: mark, no call. -/
theorem processTweet_oversize (env : Env) (x : Tweet)
    (h1 : env.clientConfigured = true) (h2 : 280 < x.content.length) :
    processTweet env x = (true, []) := by
  unfold processTweet
  rw [if_pos h1, if_neg (by omega)]

/-- A raising `create_tweet`: no mark, one call. -/
theorem processTweet_pubfail (env : Env) (x : Tweet)
    (h1 : env.clientConfigured = true) (h2 : x.content.length ≤ 280)
    (h3 : env.createTweet x.content (mediaArgOf env x) = none) :
    processTweet env x = (false, [⟨x.id, x.content, mediaArgOf env x⟩]) := by
  unfold processTweet
  rw [if_pos h1, if_pos h2, h3]

/-- A returning `create_tweet`: mark, one call. -/
theorem processTweet_pubok (env : Env) (x : Tweet)
    (h1 : env.clientConfigured = true) (h2 : x.content.length ≤ 280)
    (h3 : env.createTweet x.content (mediaArgOf env x) ≠ none) :
    processTweet env x = (true, [⟨x.id, x.content, mediaArgOf env x⟩]) := by
  unfold processTweet
  rw [if_pos h1, if_pos h2]
  obtain ⟨k, hk⟩ := Option.ne_none_iff_exists'.mp h3
  rw [hk]

/-- Error characterization of `schedule_tweet`: rejection happens exactly
for empty (stripped) content, more than 4 images, or a scheduled time
strictly earlier than `now`. -/
theorem schedule_tweet_isError_iff (now : Nat) (sub : Submission)
    (s : Store) :
    (schedule_tweet now sub s).1.isError = true ↔
      (stripWs sub.content = "" ∨ 4 < sub.image_paths.length
        ∨ sub.scheduled_time < now) := by
  unfold schedule_tweet
  by_cases h1 : stripWs sub.content = "" <;>
    by_cases h2 : 4 < sub.image_paths.length <;>
      by_cases h3 : sub.scheduled_time < now <;>
        simp [h1, h2, h3, ScheduleResult.isError]

/-- On rejection, `schedule_tweet` leaves the store unchanged. -/
theorem schedule_tweet_error_store (now : Nat) (sub : Submission) (s : Store)
    (h : (schedule_tweet now sub s).1.isError = true) :
    (schedule_tweet now sub s).2 = s := by
  have hd := (schedule_tweet_isError_iff now sub s).mp h
  unfold schedule_tweet
  dsimp only
  split_ifs with h1 h2 h3
  · rfl
  · rfl
  · rfl
  · exfalso
    rcases hd with he | he | he
    · exact h1 he
    · exact h2 he
    · exact h3 he

/-- On acceptance, `schedule_tweet` returns the fresh id and appends the
new pending row. -/
theorem schedule_tweet_ok (now : Nat) (sub : Submission) (s : Store)
    (h : (schedule_tweet now sub s).1.isError = false) :
    (schedule_tweet now sub s).1 = .ok (nextId s)
    ∧ (schedule_tweet now sub s).2
      = s ++ [⟨nextId s, stripWs sub.content, sub.scheduled_time, false,
          sub.image_paths⟩] := by
  unfold schedule_tweet
  dsimp only
  split_ifs with h1 h2 h3
  · exact absurd
      (((schedule_tweet_isError_iff now sub s).mpr (Or.inl h1)).symm.trans h)
      (by decide)
  · exact absurd
      (((schedule_tweet_isError_iff now sub s).mpr
        (Or.inr (Or.inl h2))).symm.trans h)
      (by decide)
  · exact absurd
      (((schedule_tweet_isError_iff now sub s).mpr
        (Or.inr (Or.inr h3))).symm.trans h)
      (by decide)
  · exact ⟨rfl, rfl⟩

/-- Shape of the single call `post_now` can emit: text is the stripped
content, already validated to at most 280 characters, and the `media_ids`
argument is omitted exactly when the computed handle list is empty. -/
theorem post_now_calls (env : Env) (content : String) (ips : List String)
    (c : CreateTweetCall) (hc : c ∈ (post_now env content ips).2) :
    c = ⟨0, stripWs content,
      if post_now_handles env ips = [] then none
      else some (post_now_handles env ips)⟩
    ∧ (stripWs content).length ≤ 280 := by
  unfold post_now at hc
  by_cases h1 : env.clientConfigured = true
  · simp only [h1, Bool.not_true, Bool.false_eq_true, if_false] at hc
    by_cases h2 : stripWs content = ""
    · simp [h2] at hc
    · simp only [h2, if_false] at hc
      by_cases h3 : 280 < (stripWs content).length
      · simp [h3] at hc
      · simp only [h3, if_false] at hc
        by_cases h4 : 4 < ips.length
        · simp [h4] at hc
        · simp only [h4, if_false] at hc
          cases hm : env.createTweet (stripWs content)
              (if (post_now_handles env ips).isEmpty then none
               else some (post_now_handles env ips)) <;>
            rw [hm] at hc <;> simp at hc <;> exact ⟨hc, by omega⟩
  · simp only [Bool.not_eq_true] at h1
    simp [h1] at hc

/-! ### Claim theorems -/

/-- C1: for every store state and every time `now`, `selectDue now` returns
exactly the posts that are pending (`posted = 0`) with
`scheduled_time ≤ now`; it never returns a post in a terminal state and
never returns a post whose scheduled time is after `now`. -/
theorem selectDue_exactly_pending_due (s : Store) (now : Nat) (t : Tweet) :
    (t ∈ selectDue s now ↔
      t ∈ s ∧ isPending t = true ∧ t.scheduled_time ≤ now)
    ∧ (t ∈ selectDue s now →
        isTerminal t = false ∧ ¬now < t.scheduled_time) := by
  constructor
  · rw [mem_selectDue]
    simp [isPending, Bool.not_eq_true']
  · intro ht
    have h := mem_selectDue.mp ht
    refine ⟨by simp [isTerminal, h.2.1], ?_⟩
    have := h.2.2
    omega

/-- C1 witness: the short pending row due at time 3 is returned by
`selectDue` at time 5, is not terminal, and is not scheduled after 5. -/
theorem selectDue_exactly_pending_due_witness :
    rowShort ∈ selectDue storeSmall 5
    ∧ isTerminal rowShort = false ∧ ¬(5 : Nat) < rowShort.scheduled_time :=
  ⟨by decide, (selectDue_exactly_pending_due storeSmall 5 rowShort).2
    (by decide)⟩

/-- C2 counterexample: a submission whose scheduled time EQUALS the
current time is not strictly in the future, yet `schedule_tweet` accepts
it (`scheduled_datetime < now` is false at equality, src/app.py:176) and
persists a pending row, where the claim demands a `ValidationError` and no
persisted row. -/
theorem schedule_tweet_accepts_now :
    (schedule_tweet 5 ⟨"hi", 5, []⟩ []).1 = .ok 1
    ∧ (schedule_tweet 5 ⟨"hi", 5, []⟩ []).2 = [⟨1, "hi", 5, false, []⟩] := by
  constructor <;> decide

/-- C2 (amended): `schedule_tweet` fails with a `ValidationError` exactly
when the stripped content is empty, more than 4 attachments are given, or
the scheduled time is strictly in the past (`scheduled_time < now`); on
failure no row is persisted, and on success a new pending row is persisted
and its id returned. -/
theorem schedule_tweet_validation (now : Nat) (sub : Submission)
    (s : Store) :
    ((schedule_tweet now sub s).1.isError = true ↔
      (stripWs sub.content = "" ∨ 4 < sub.image_paths.length
        ∨ sub.scheduled_time < now))
    ∧ ((schedule_tweet now sub s).1.isError = true →
        (schedule_tweet now sub s).2 = s)
    ∧ ((schedule_tweet now sub s).1.isError = false →
        (schedule_tweet now sub s).1 = .ok (nextId s)
        ∧ (schedule_tweet now sub s).2
          = s ++ [⟨nextId s, stripWs sub.content, sub.scheduled_time, false,
              sub.image_paths⟩]) :=
  ⟨schedule_tweet_isError_iff now sub s,
   schedule_tweet_error_store now sub s,
   schedule_tweet_ok now sub s⟩

/-- C2 witness: a valid future submission is accepted, gets id 1, and the
stripped pending row is persisted. -/
theorem schedule_tweet_validation_witness :
    (schedule_tweet 10 ⟨" hello ", 20, []⟩ []).1.isError = false
    ∧ (schedule_tweet 10 ⟨" hello ", 20, []⟩ []).1 = .ok 1
    ∧ (schedule_tweet 10 ⟨" hello ", 20, []⟩ []).2
      = [⟨1, "hello", 20, false, []⟩] := by
  have h := (schedule_tweet_validation 10 ⟨" hello ", 20, []⟩ []).2.2
    (by decide)
  exact ⟨by decide, h.1.trans (by decide), h.2.trans (by decide)⟩

/-- C3: a due post with content longer than 280 characters is marked
terminal by one tick, `create_tweet` is never invoked for it, and it is
never selected as due again on any later tick of any environment. -/
theorem oversize_marked_never_published (env : Env) (now : Nat) (s : Store)
    (t : Tweet) (hc : env.clientConfigured = true) (hn : idsNodup s)
    (ht : t ∈ selectDue s now) (hlen : 280 < t.content.length) :
    lookupId (tick env now s).1 t.id = some { t with posted := true }
    ∧ (∀ c ∈ (tick env now s).2, c.tweetId ≠ t.id)
    ∧ ∀ env2 nows n2,
        ∀ x ∈ selectDue (runTicks env2 nows (tick env now s).1) n2,
          x.id ≠ t.id := by
  have hproc := processTweet_oversize env t hc hlen
  have hlook : lookupId (tick env now s).1 t.id
      = some { t with posted := true } := by
    rw [tick_lookup_due env hn ht, hproc]
    rfl
  refine ⟨hlook, ?_, ?_⟩
  · intro c hcmem he
    obtain ⟨x, hx, hcx⟩ := tick_calls_mem env now s c hcmem
    obtain ⟨hceq, _, hxlen⟩ := processTweet_calls env x c hcx
    have hxid : x.id = t.id := by rw [hceq] at he; exact he
    have hxt : x = t :=
      id_inj s hn (mem_selectDue.mp ht).1 (mem_selectDue.mp hx).1 hxid
    rw [hxt] at hxlen
    omega
  · intro env2 nows n2 x hx
    have hpers := lookup_posted_runTicks env2 nows (tick env now s).1 t.id
      { t with posted := true } hlook rfl
    exact posted_not_due _ n2 t.id { t with posted := true }
      (idsNodup_runTicks env2 nows _ (idsNodup_tick env now s hn)) hpers rfl
      x hx

set_option maxRecDepth 8000 in
/-- C3 witness: the 281-character row 1 of the concrete store is due at
time 5 and one tick of the always-succeeding environment marks it. -/
theorem oversize_marked_never_published_witness :
    envOk.clientConfigured = true ∧ idsNodup storeABC
    ∧ rowOversize ∈ selectDue storeABC 5
    ∧ 280 < rowOversize.content.length
    ∧ lookupId (tick envOk 5 storeABC).1 1
      = some { rowOversize with posted := true } :=
  ⟨rfl, by decide, by decide, by decide,
   (oversize_marked_never_published envOk 5 storeABC rowOversize rfl
     (by decide) (by decide) (by decide)).1⟩

/-- C4: when `create_tweet` raises for a due post, the tick leaves its
row untouched and still pending, so the same post is selected as due again
afterwards (at-least-once retry). -/
theorem publish_failure_leaves_pending (env : Env) (now : Nat) (s : Store)
    (t : Tweet) (hn : idsNodup s) (ht : t ∈ selectDue s now)
    (hc : env.clientConfigured = true) (hlen : t.content.length ≤ 280)
    (hfail : env.createTweet t.content (mediaArgOf env t) = none) :
    lookupId (tick env now s).1 t.id = some t
    ∧ t ∈ selectDue (tick env now s).1 now := by
  have hproc := processTweet_pubfail env t hc hlen hfail
  have hlook : lookupId (tick env now s).1 t.id = some t := by
    rw [tick_lookup_due env hn ht, hproc]
    rfl
  refine ⟨hlook, ?_⟩
  have hmem := (mem_of_lookupId _ _ _ hlook).1
  have h0 := mem_selectDue.mp ht
  exact mem_selectDue.mpr ⟨hmem, h0.2.1, h0.2.2⟩

/-- C4 witness: with an environment whose `create_tweet` always raises,
the short due row survives a tick unchanged and is due again. -/
theorem publish_failure_leaves_pending_witness :
    idsNodup storeSmall ∧ rowShort ∈ selectDue storeSmall 5
    ∧ envFail.clientConfigured = true ∧ rowShort.content.length ≤ 280
    ∧ rowShort ∈ selectDue (tick envFail 5 storeSmall).1 5 :=
  ⟨by decide, by decide, rfl, by decide,
   (publish_failure_leaves_pending envFail 5 storeSmall rowShort (by decide)
     (by decide) rfl (by decide) rfl).2⟩

/-- C5: the media resolver skips missing files and raising uploads while
still attempting every reference (its result is the filterMap of the
per-reference step); and a due post whose references yield zero handles is
still published text-only (`media_ids` omitted) and reaches the terminal
posted state when the publish succeeds. -/
theorem media_resolver_partial_failure (env : Env) (paths : List String)
    (now : Nat) (s : Store) (t : Tweet)
    (hapi : env.apiV1Configured = true) (hn : idsNodup s)
    (ht : t ∈ selectDue s now) (hc : env.clientConfigured = true)
    (hlen : t.content.length ≤ 280) (hzero : handlesOf env t = [])
    (hpub : env.createTweet t.content none ≠ none) :
    upload_media_to_twitter env paths = paths.filterMap (uploadOne env)
    ∧ lookupId (tick env now s).1 t.id = some { t with posted := true }
    ∧ ∀ c ∈ (tick env now s).2, c.tweetId = t.id → c.media = none := by
  have harg : mediaArgOf env t = none := by
    unfold mediaArgOf
    rw [hzero]
    rfl
  have hproc := processTweet_pubok env t hc hlen (by rw [harg]; exact hpub)
  refine ⟨?_, ?_, ?_⟩
  · cases paths with
    | nil => simp [upload_media_to_twitter, hapi]
    | cons a l => simp [upload_media_to_twitter, hapi]
  · rw [tick_lookup_due env hn ht, hproc]
    rfl
  · intro c hcm he
    obtain ⟨hceq, _, _⟩ := processTweet_calls env t c
      (by
        obtain ⟨x, hx, hcx⟩ := tick_calls_mem env now s c hcm
        obtain ⟨hceq2, _, _⟩ := processTweet_calls env x c hcx
        have hxid : x.id = t.id := by rw [hceq2] at he; exact he
        have hxt : x = t := id_inj s hn (mem_selectDue.mp ht).1
          (mem_selectDue.mp hx).1 hxid
        rw [← hxt]
        exact hcx)
    rw [hceq, harg]

/-- C5 witness: the row whose only attachment reference names a missing
file gets zero handles, is published text-only, and is marked posted. -/
theorem media_resolver_partial_failure_witness :
    envOk.apiV1Configured = true ∧ handlesOf envOk rowMissingMedia = []
    ∧ lookupId (tick envOk 5 storeSmall).1 3
      = some { rowMissingMedia with posted := true } := by
  refine ⟨rfl, by decide, ?_⟩
  exact (media_resolver_partial_failure envOk ["gone.png"] 5 storeSmall
    rowMissingMedia rfl (by decide) (by decide) rfl (by decide) (by decide)
    (by decide)).2.1

/-- C6: both publish paths validate `content.length ≤ 280` before
invoking the external create-post call — no emitted call carries longer
text — and both pass the `media_ids` argument exactly when the computed
handle list is non-empty, omitting the parameter entirely otherwise. -/
theorem publisher_validates_and_media_arg (env : Env) (t : Tweet)
    (content : String) (image_paths : List String) :
    (∀ c ∈ (processTweet env t).2,
      c.text.length ≤ 280 ∧ (c.media = none ↔ handlesOf env t = []))
    ∧ ∀ c ∈ (post_now env content image_paths).2,
        c.text.length ≤ 280
        ∧ (c.media = none ↔ post_now_handles env image_paths = []) := by
  constructor
  · intro c hc
    obtain ⟨hceq, _, hlen⟩ := processTweet_calls env t c hc
    subst hceq
    refine ⟨hlen, ?_⟩
    show mediaArgOf env t = none ↔ handlesOf env t = []
    unfold mediaArgOf
    by_cases hh : (handlesOf env t).isEmpty = true
    · rw [if_pos hh]
      simp only [List.isEmpty_iff] at hh
      simp [hh]
    · rw [if_neg hh]
      have hne : handlesOf env t ≠ [] := fun he => hh (by simp [he])
      simp [hne]
  · intro c hc
    obtain ⟨hceq, hlen⟩ := post_now_calls env content image_paths c hc
    subst hceq
    refine ⟨hlen, ?_⟩
    show (if post_now_handles env image_paths = [] then none
        else some (post_now_handles env image_paths)) = none
      ↔ post_now_handles env image_paths = []
    by_cases hh : post_now_handles env image_paths = [] <;> simp [hh]

/-- C6 witness: the call emitted for the short row has text of length at
most 280 and omits `media_ids` because the computed handle list is
empty. -/
theorem publisher_validates_and_media_arg_witness :
    (⟨2, "hello", none⟩ : CreateTweetCall) ∈ (processTweet envOk rowShort).2
    ∧ (⟨2, "hello", none⟩ : CreateTweetCall).text.length ≤ 280
    ∧ ((⟨2, "hello", none⟩ : CreateTweetCall).media = none
        ↔ handlesOf envOk rowShort = []) := by
  refine ⟨by decide, ?_⟩
  exact (publisher_validates_and_media_arg envOk rowShort "x" []).1
    ⟨2, "hello", none⟩ (by decide)

/-- A second application of `markPosted` on the same id changes nothing. -/
theorem markPosted_twice (s : Store) (i : Nat) :
    markPosted (markPosted s i) i = markPosted s i := by
  induction s with
  | nil => rfl
  | cons t l ih =>
    by_cases h : t.id = i <;> simp [markPosted_cons, h, ih]

/-- `markPosted` is the identity on a store whose row at the id is already
posted. -/
theorem markPosted_noop (s : Store) (i : Nat) :
    (∀ u ∈ s, u.id = i → u.posted = true) → markPosted s i = s := by
  induction s with
  | nil => intro _; rfl
  | cons t l ih =>
    intro hall
    rw [markPosted_cons]
    have h1 : (if t.id = i then ({ t with posted := true } : Tweet) else t)
        = t := by
      by_cases h : t.id = i
      · rw [if_pos h]
        exact markFn_of_posted t (hall t (List.mem_cons_self _ _) h)
      · rw [if_neg h]
    rw [h1, ih (fun u hu hid => hall u (List.mem_cons_of_mem t hu) hid)]

/-- C7: `markPosted` is idempotent — a second call on the same id is a
no-op on the store state, and on a store whose row at the id is already
out of `Pending` (posted) the call changes no row at all. -/
theorem markPosted_idempotent (s : Store) (i : Nat) :
    markPosted (markPosted s i) i = markPosted s i
    ∧ ((∀ u ∈ s, u.id = i → u.posted = true) → markPosted s i = s) :=
  ⟨markPosted_twice s i, markPosted_noop s i⟩

/-- C7 witness: on the concrete store whose row 1 is already posted, a
call and a repeated call of `markPosted 1` both leave the store as is. -/
theorem markPosted_idempotent_witness :
    markPosted (markPosted storePosted 1) 1 = markPosted storePosted 1
    ∧ markPosted storePosted 1 = storePosted :=
  ⟨(markPosted_idempotent storePosted 1).1,
   (markPosted_idempotent storePosted 1).2 (by decide)⟩

/-- C8: after arbitrarily many ticks of an environment injecting arbitrary
per-post failures, the loop still performs its next tick in full: every
then-due post's row after that tick is determined solely by that post's
own processing (other posts' exceptions cannot reach it), and no row is
ever created, dropped, or re-keyed by the ticking. -/
theorem loop_survives_and_isolates (env : Env) (nows : List Nat) (s : Store)
    (now : Nat) (hn : idsNodup s) (t : Tweet)
    (ht : t ∈ selectDue (runTicks env nows s) now) :
    lookupId (tick env now (runTicks env nows s)).1 t.id
      = some (if (processTweet env t).1 then { t with posted := true }
          else t)
    ∧ ((tick env now (runTicks env nows s)).1).map Tweet.id
      = s.map Tweet.id := by
  have hn2 := idsNodup_runTicks env nows s hn
  refine ⟨tick_lookup_due env hn2 ht, ?_⟩
  rw [ids_tick, ids_runTicks]

/-- C8 witness: after two ticks of the always-raising environment the
short row is still due, and the third tick's effect on it is exactly its
own (failing) processing. -/
theorem loop_survives_and_isolates_witness :
    idsNodup storeSmall
    ∧ rowShort ∈ selectDue (runTicks envFail [3, 4] storeSmall) 5
    ∧ lookupId (tick envFail 5 (runTicks envFail [3, 4] storeSmall)).1 2
      = some (if (processTweet envFail rowShort).1 then
          { rowShort with posted := true } else rowShort) :=
  ⟨by decide, by decide,
   (loop_survives_and_isolates envFail [3, 4] storeSmall 5 (by decide)
     rowShort (by decide)).1⟩

/-- C9: the stored state is the single `posted` flag, so the two terminal
outcomes are recorded identically: one tick marks an oversized due post
with `posted = 1` and a successfully delivered due post with `posted = 1`,
the listing maps both rows to `posted = true`, and any listing entry for
the permanently skipped post shows `posted = true`, indistinguishable from
a delivered one. -/
theorem terminal_states_indistinguishable (env : Env) (now : Nat)
    (s : Store) (t u : Tweet) (hc : env.clientConfigured = true)
    (hn : idsNodup s) (ht : t ∈ selectDue s now)
    (hlent : 280 < t.content.length) (hu : u ∈ selectDue s now)
    (hlenu : u.content.length ≤ 280)
    (hok : env.createTweet u.content (mediaArgOf env u) ≠ none) :
    lookupId (tick env now s).1 t.id = some { t with posted := true }
    ∧ lookupId (tick env now s).1 u.id = some { u with posted := true }
    ∧ (tweetView { t with posted := true }).posted = true
    ∧ (tweetView { t with posted := true }).posted
      = (tweetView { u with posted := true }).posted
    ∧ ∀ v ∈ get_tweets (tick env now s).1, v.id = t.id → v.posted = true := by
  have hproct := processTweet_oversize env t hc hlent
  have hprocu := processTweet_pubok env u hc hlenu hok
  have hlt : lookupId (tick env now s).1 t.id
      = some { t with posted := true } := by
    rw [tick_lookup_due env hn ht, hproct]
    rfl
  have hlu : lookupId (tick env now s).1 u.id
      = some { u with posted := true } := by
    rw [tick_lookup_due env hn hu, hprocu]
    rfl
  refine ⟨hlt, hlu, rfl, rfl, ?_⟩
  intro v hv hvid
  unfold get_tweets at hv
  rw [List.mem_map] at hv
  obtain ⟨w, hw, hweq⟩ := hv
  have hw2 : w ∈ (tick env now s).1 :=
    List.mem_mergeSort.mp (List.mem_of_mem_take hw)
  obtain ⟨hmem, _⟩ := mem_of_lookupId _ _ _ hlt
  have hnt := idsNodup_tick env now s hn
  have hwid : w.id = t.id := by rw [← hweq] at hvid; exact hvid
  have hwt : w = { t with posted := true } := id_inj _ hnt hmem hw2 hwid
  rw [← hweq, hwt]
  rfl

set_option maxRecDepth 8000 in
/-- C9 witness: one tick of the always-succeeding environment records the
oversized row 1 (permanently skipped) and the delivered row 2 with the
same flag value `posted = 1`. -/
theorem terminal_states_indistinguishable_witness :
    envOk.clientConfigured = true ∧ idsNodup storeABC
    ∧ lookupId (tick envOk 5 storeABC).1 1
      = some { rowOversize with posted := true }
    ∧ lookupId (tick envOk 5 storeABC).1 2
      = some { rowShort with posted := true } := by
  have h := terminal_states_indistinguishable envOk 5 storeABC rowOversize
    rowShort rfl (by decide) (by decide) (by decide) (by decide) (by decide)
    (by decide)
  exact ⟨rfl, by decide, h.1, h.2.1⟩

/-- C10: in the multipart submission path the uploaded files are saved
into the upload folder before any validation runs, so a submission that is
then rejected still leaves every uploaded file persisted in storage while
no database row is created. -/
theorem multipart_saves_before_validation (now : Nat) (content : String)
    (scheduled_time : Nat) (files : List String) (stamp : String)
    (storage : List String) (s : Store)
    (herr : (schedule_tweet_multipart now content scheduled_time files stamp
      storage s).1.isError = true) :
    (schedule_tweet_multipart now content scheduled_time files stamp storage
      s).2.1 = s
    ∧ (schedule_tweet_multipart now content scheduled_time files stamp
        storage s).2.2
      = storage ++ (files.filter (fun f => f ≠ "")).map (savedName stamp) := by
  constructor
  · exact schedule_tweet_error_store now
      ⟨content, scheduled_time,
        (files.filter (fun f => f ≠ "")).map (savedName stamp)⟩ s herr
  · rfl

/-- C10 witness: an empty-content multipart submission with one uploaded
file is rejected, persists no row, and still leaves the saved file in the
upload folder. -/
theorem multipart_saves_before_validation_witness :
    (schedule_tweet_multipart 5 "" 9 ["a.png"] "T_" ["old.png"] []).1.isError
      = true
    ∧ (schedule_tweet_multipart 5 "" 9 ["a.png"] "T_" ["old.png"] []).2.1
      = []
    ∧ (schedule_tweet_multipart 5 "" 9 ["a.png"] "T_" ["old.png"] []).2.2
      = ["old.png", "T_a.png"] := by
  have h := multipart_saves_before_validation 5 "" 9 ["a.png"] "T_"
    ["old.png"] [] (by decide)
  exact ⟨by decide, h.1, h.2.trans (by decide)⟩
